import Mathlib

/-!
Shallow embedding of the rollout inference/estimation/tracking engine
(`estimate.rs`, `rollout.rs`, `infer.rs`, `debug.rs`) in Lean 4.

Machine integers are modelled by `Nat` (for `u32`) and `Int` (for `i32`),
with explicit `% 2^32` wrapping or explicit bounds where overflow matters.
Fallible code returns `Option` / sum types; a `none` / dedicated constructor
models a Rust panic (`unwrap`, `expect`, `assert_eq!`, arithmetic overflow
in debug profile).
-/

/-- Largest value of the Rust `u32` type. -/
def u32max : Nat := 4294967295

/-- Largest value of the Rust `u64` type (bound enforced by `u64` parsing
inside the semver crate's numeric components). -/
def u64max : Nat := 18446744073709551615

/-- Numeric value of a decimal digit character, `none` on a non-digit.
Mirrors the per-character work of Rust's `str::parse::<u32>`. -/
def digitVal (c : Char) : Option Nat :=
  if c.isDigit then some (c.toNat - 48) else none

/-- Accumulate decimal digits into a number; `none` if a non-digit occurs. -/
def parseDigitsAux : List Char → Nat → Option Nat
  | [], acc => some acc
  | c :: cs, acc =>
    match digitVal c with
    | some d => parseDigitsAux cs (acc * 10 + d)
    | none => none

/-- Model of Rust `str::parse::<u32>` on a character sequence: an optional
leading `+`, then one or more decimal digits, value at most `u32::MAX`;
anything else is a parse error (`none`). -/
def parseU32 (cs : List Char) : Option Nat :=
  let body := match cs with
    | '+' :: rest => rest
    | other => other
  match body with
  | [] => none
  | _ =>
    match parseDigitsAux body 0 with
    | some n => if n ≤ u32max then some n else none
    | none => none

/-- `AvailabilityPolicy` from `estimate.rs`: percentage string or absolute
`u32` count. -/
inductive AvailabilityPolicy where
  | Percentage (s : String)
  | Unsigned (u : Nat)
deriving DecidableEq

/-- Convert a policy to a replica count, rounding up (`estimate.rs`
`to_replicas_ceil`).  The source computes
`((replicas as f64 * perc as f64) / 100.0).ceil() as u32`; for every pair of
`u32` inputs this IEEE-double computation returns exactly
`min (ceil (replicas * perc / 100)) u32::MAX`: when the exact ceiling fits a
`u32` the product is below `2^53` (hence exact) and the quotient is below
`2^32`, where a double's spacing is far smaller than the `1/100` gap between
the quotient and any integer, so `ceil` agrees with exact arithmetic; when
the exact ceiling exceeds `u32::MAX` the computed double is also at least
`2^32` and the `as u32` cast saturates to `u32::MAX`.  `none` models the
`unwrap` panic when the percentage text does not parse. -/
def AvailabilityPolicy.to_replicas_ceil : AvailabilityPolicy → Nat → Option Nat
  | .Percentage percstr, replicas =>
    match parseU32 (percstr.data.takeWhile (fun c => c != '%')) with
    | some surgeperc => some (min ((replicas * surgeperc + 99) / 100) u32max)
    | none => none
  | .Unsigned u, _ => some u

/-- Convert a policy to a replica count, rounding down (`estimate.rs`
`to_replicas_floor`).  Same IEEE-double analysis as `to_replicas_ceil`:
the source's `((replicas as f64 * perc as f64) / 100.0).floor() as u32`
equals `min (replicas * perc / 100) u32::MAX` in exact arithmetic for all
`u32` inputs. -/
def AvailabilityPolicy.to_replicas_floor : AvailabilityPolicy → Nat → Option Nat
  | .Percentage percstr, replicas =>
    match parseU32 (percstr.data.takeWhile (fun c => c != '%')) with
    | some surgeperc => some (min (replicas * surgeperc / 100) u32max)
    | none => none
  | .Unsigned u, _ => some u

/-- `RolloutStrategy` from `estimate.rs`. -/
structure RolloutStrategy where
  max_unavailable : Option AvailabilityPolicy
  max_surge : Option AvailabilityPolicy
deriving DecidableEq

/-- The `Default` impl of `RolloutStrategy`: 25% / 25% as in the source
(`Percentage(25.to_string())`, i.e. the string has no `%` sign, which
`take_while` handles identically). -/
def RolloutStrategy.defaultStrategy : RolloutStrategy :=
  { max_unavailable := some (.Percentage "25"), max_surge := some (.Percentage "25") }

/-- Derived surge count from `rollout_iterations` (first `let`): policy value
rounded up, or the default-25% branch
`(f64::from(replicas * 25) / 100.0).ceil() as u32`.  In that branch
`replicas * 25` is a `u32` multiplication, which wraps modulo `2^32` in the
release profile (modelled here); the following double division and cast are
exact because the wrapped product is below `2^32`. -/
def RolloutStrategy.surgeCount (s : RolloutStrategy) (replicas : Nat) : Option Nat :=
  match s.max_surge with
  | some surge => surge.to_replicas_ceil replicas
  | none => some ((replicas * 25 % 4294967296 + 99) / 100)

/-- Derived unavailable count from `rollout_iterations` (second `let`):
policy value rounded down, or the default-25% branch with `floor`. -/
def RolloutStrategy.unavailCount (s : RolloutStrategy) (replicas : Nat) : Option Nat :=
  match s.max_unavailable with
  | some unav => unav.to_replicas_floor replicas
  | none => some (replicas * 25 % 4294967296 / 100)

/-- One iteration of the `while` body of `rollout_iterations`
(`estimate.rs` lines 134-154), on the state `(newrs, oldrs)`:
kill surplus old replicas, compute the safe unavailable budget from the
total, retire up to that many old replicas, admit `unavail_safe + surge`
new ones.  `Nat` subtraction truncates at zero exactly where the `u32`
subtraction is exact on the reachable states (proved below). -/
def rolloutBody (replicas surge unavail : Nat) (s : Nat × Nat) : Nat × Nat :=
  let newrs := s.1
  let oldrs := s.2
  let oldrs1 := oldrs - (oldrs + newrs - replicas)
  let total := newrs + oldrs1
  let unavail_safe := if total ≤ unavail then 0 else unavail
  let oldrs2 := oldrs1 - min oldrs1 unavail_safe
  (newrs + unavail_safe + surge, oldrs2)

/-- The `while newrs < replicas` loop of `rollout_iterations`, with explicit
fuel; `none` models fuel exhaustion (the source loop would still be
running). -/
def rolloutLoop (replicas surge unavail : Nat) : Nat → Nat × Nat → Nat → Option Nat
  | 0, _, _ => none
  | fuel + 1, s, iters =>
    if s.1 < replicas then
      rolloutLoop replicas surge unavail fuel (rolloutBody replicas surge unavail s) (iters + 1)
    else some iters

/-- State of the loop at the top of iteration `k` when run from the initial
state `newrs = 0, oldrs = replicas` of `rollout_iterations`. -/
def rolloutStateK (replicas surge unavail : Nat) : Nat → Nat × Nat
  | 0 => (0, replicas)
  | k + 1 => rolloutBody replicas surge unavail (rolloutStateK replicas surge unavail k)

/-- `RolloutStrategy::rollout_iterations`.  The fuel `replicas + 1`
suffices whenever the source loop terminates (each productive iteration
adds at least one to `newrs`, proved below), so `none` is returned exactly
when a percentage fails to parse (source panics) or the source loop never
exits. -/
def RolloutStrategy.rollout_iterations (s : RolloutStrategy) (replicas : Nat) : Option Nat :=
  match s.surgeCount replicas, s.unavailCount replicas with
  | some surge, some unavail => rolloutLoop replicas surge unavail (replicas + 1) (0, replicas) 0
  | _, _ => none

/-- The loop's effective unavailable budget: after the first statement of
every iteration the total is exactly `replicas`, so the in-loop
`unavail_safe` equals this value at every iteration (proved below). -/
def usafe (replicas unavail : Nat) : Nat :=
  if replicas ≤ unavail then 0 else unavail

/-- Termination of the source `while` loop of `rollout_iterations` for a
strategy and replica count: some finite fuel makes the loop exit. -/
def RolloutTerminates (s : RolloutStrategy) (replicas : Nat) : Prop :=
  ∃ surge unavail fuel iters,
    s.surgeCount replicas = some surge ∧
    s.unavailCount replicas = some unavail ∧
    rolloutLoop replicas surge unavail fuel (0, replicas) 0 = some iters

/-- `WaitParams` from `estimate.rs` (`u32` fields as `Nat`). -/
structure WaitParams where
  rolling_update : Option RolloutStrategy
  min_replicas : Nat
  image_size : Option Nat
  initial_delay_seconds : Option Nat
deriving DecidableEq

/-- `estimate_wait_time` from `estimate.rs`.  The pull-time double
computation `((size as f64 * 90.0) / 512.0) as u32` is exact division by a
power of two of an exact product below `2^53`, so it equals
`size * 90 / 512` (truncated); the leeway `(delay as f64 * 1.5).ceil() as u32`
equals `ceil (3 * delay / 2)` with the cast saturating at `u32::MAX`; the
final `u32` sum and product wrap modulo `2^32` (release profile).  `none`
propagates a non-returning or panicking `rollout_iterations`. -/
def estimate_wait_time (wp : WaitParams) : Option Nat :=
  let size := wp.image_size.getD 512
  let pulltime_est := max 60 (size * 90 / 512)
  let ru := wp.rolling_update.getD RolloutStrategy.defaultStrategy
  match ru.rollout_iterations wp.min_replicas with
  | none => none
  | some iterations =>
    let delay_time_secs := wp.initial_delay_seconds.getD 30
    let delay_time := min ((delay_time_secs * 3 + 1) / 2) u32max
    some ((delay_time + pulltime_est) % 4294967296 * iterations % 4294967296)

/-- `Outcome` from `rollout.rs`: progress snapshot of one poll. -/
structure Outcome where
  progress : Nat
  expected : Nat
  message : Option String
  ok : Bool
deriving DecidableEq

/-- `State` from `rollout.rs`; the opaque label selector is omitted (the
evaluators never inspect it, they only pass it to the client, which is
modelled by making the fetched child object an explicit argument). -/
structure State where
  hash : Option String
  min_replicas : Nat
deriving DecidableEq

/-- Result of one status evaluation: `ok` carries the `Outcome`, `err` a
propagated `Error::KubeInvariant` message, `fatal` models a Rust
panic (`expect` on an out-of-range conversion). -/
inductive EvalResult where
  | ok (o : Outcome)
  | err (msg : String)
  | fatal
deriving DecidableEq

/-- Wrap a mathematical integer into the `i32` range, as Rust release-mode
two's-complement arithmetic does. -/
def i32wrap (x : Int) : Int := (x + 2147483648) % 4294967296 - 2147483648

/-- `DeploySummary` from `rollout.rs` (`i32` status fields as `Int`). -/
structure DeploySummary where
  replicas : Int
  unavailable : Int
  ready : Int
  new_replicas_available : Bool
  message : Option String
deriving DecidableEq

/-- `ReplicaSetSummary` from `rollout.rs`. -/
structure ReplicaSetSummary where
  hash : String
  version : String
  replicas : Int
  ready : Int
deriving DecidableEq

/-- `StatefulSummary` from `rollout.rs`. -/
structure StatefulSummary where
  replicas : Int
  ready : Int
  current_revision : Option String
  current_replicas : Int
  update_revision : Option String
  updated_replicas : Int
deriving DecidableEq

/-- `DaemonSummary` from `rollout.rs`. -/
structure DaemonSummary where
  ready : Int
  desired : Int
  updated : Option Int
deriving DecidableEq

/-- `rollout_status_deploy` from `rollout.rs`, as a pure function of the
deployment summary, the tracking state, and the replica set the pinned
fetch returned (`fetched`; the source only performs that fetch when a hash
is pinned, and `get_rs` may yield nothing).  `fatal` models the `expect`
on `i32::try_from(minimum)`; `err` the `Error::KubeInvariant` returned when
the progress count is negative on the accurate path. -/
def rollout_status_deploy (d : DeploySummary) (state : State)
    (fetched : Option ReplicaSetSummary) : EvalResult :=
  let acc_min : Option Int × Nat :=
    match state.hash, fetched with
    | some _, some r => (some r.ready, max state.min_replicas r.replicas.toNat)
    | _, _ => (none, state.min_replicas)
  let accurate_progress := acc_min.1
  let minimum := acc_min.2
  if 2147483648 ≤ minimum then .fatal
  else
    let ok :=
      match accurate_progress with
      | some acc => decide (acc = (minimum : Int))
      | none =>
        decide (d.ready = d.replicas) && decide ((minimum : Int) ≤ d.ready) &&
          (d.new_replicas_available || decide (d.unavailable ≤ 0))
    let progress : Int :=
      match accurate_progress with
      | some p => p
      | none => max 0 (i32wrap (d.ready - d.unavailable))
    if progress < 0 then .err "progress >= 0"
    else .ok { progress := progress.toNat, expected := minimum, message := d.message, ok := ok }

/-- `rollout_status_statefulset` from `rollout.rs`. -/
def rollout_status_statefulset (s : StatefulSummary) (state : State) : EvalResult :=
  let minimum := state.min_replicas
  if 2147483648 ≤ minimum then .fatal
  else
    let ok :=
      decide ((minimum : Int) ≤ s.updated_replicas) &&
        decide (s.updated_replicas = s.ready) &&
        decide (s.update_revision = state.hash)
    let message := if ok then none else some "Statefulset update in progress"
    .ok { progress := (max 0 s.updated_replicas).toNat, expected := minimum,
          message := message, ok := ok }

/-- `rollout_status_daemonset` from `rollout.rs`. -/
def rollout_status_daemonset (s : DaemonSummary) (state : State) : EvalResult :=
  let minimum := state.min_replicas
  if 2147483648 ≤ minimum then .fatal
  else
    let ok := decide ((minimum : Int) ≤ s.desired) && decide (some s.desired = s.updated)
    let message := if ok then none else some "Daemonset update in progress"
    .ok { progress := (max 0 (s.updated.getD s.ready)).toNat, expected := minimum,
          message := message, ok := ok }

/-- Readiness probe fields used by `infer.rs` (`initial_delay_seconds` is an
`i32` in the platform API). -/
structure Probe where
  initial_delay_seconds : Option Int
deriving DecidableEq

/-- Container fields used by `infer.rs` and `rollout.rs`. -/
structure Container where
  name : String
  image : Option String
  readiness_probe : Option Probe
deriving DecidableEq

/-- Pod template spec fields used by `infer.rs`. -/
structure PodSpec where
  containers : List Container
deriving DecidableEq

/-- One step of the `for` loop of `find_pod_delay` (`infer.rs` lines
122-128): take the max with the container's declared delay when it has a
readiness probe with a delay, using `unsigned_abs` as the source does. -/
def delayStep (max_delay : Nat) (c : Container) : Nat :=
  match c.readiness_probe with
  | some rp =>
    match rp.initial_delay_seconds with
    | some delay => max max_delay delay.natAbs
    | none => max_delay
  | none => max_delay

/-- `find_pod_delay` from `infer.rs`: folds `delayStep` over the containers
starting from `0` and always returns `Some`. -/
def find_pod_delay (p : PodSpec) : Option Nat :=
  some (p.containers.foldl delayStep 0)

/-- Split a character list on a separator, keeping empty segments, as Rust's
`str::split` does (the result is never empty). -/
def splitOnChar (sep : Char) : List Char → List (List Char)
  | [] => [[]]
  | c :: cs =>
    let r := splitOnChar sep cs
    if c = sep then [] :: r
    else
      match r with
      | h :: t => (c :: h) :: t
      | [] => [[c]]

/-- Longest digit prefix and the remainder (`span` on `isDigit`). -/
def spanDigits : List Char → List Char × List Char
  | [] => ([], [])
  | c :: cs =>
    if c.isDigit then
      let r := spanDigits cs
      (c :: r.1, r.2)
    else ([], c :: cs)

/-- Value of a digit sequence in base ten. -/
def natOfDigits : List Char → Nat → Nat
  | [], acc => acc
  | c :: cs, acc => natOfDigits cs (acc * 10 + (c.toNat - 48))

/-- Valid numeric component of a semver core version: nonempty digits, no
leading zero unless the component is exactly `0`, value within `u64`. -/
def numOk : List Char → Bool
  | [] => false
  | ['0'] => true
  | '0' :: _ :: _ => false
  | ds => decide (natOfDigits ds 0 ≤ u64max)

/-- Character allowed inside a semver pre-release or build identifier. -/
def idChar (c : Char) : Bool := c.isAlphanum || c = '-'

/-- Valid semver pre-release identifier: nonempty, alphanumeric or hyphen,
and if all digits then no leading zero. -/
def preIdent (cs : List Char) : Bool :=
  !cs.isEmpty && cs.all idChar &&
    (if cs.all Char.isDigit then
      match cs with
      | '0' :: _ :: _ => false
      | _ => true
    else true)

/-- Valid semver build identifier: nonempty, alphanumeric or hyphen. -/
def buildIdent (cs : List Char) : Bool :=
  !cs.isEmpty && cs.all idChar

/-- Split the pre-release text from the build metadata at the first `+`. -/
def breakPlus : List Char → List Char × Option (List Char)
  | [] => ([], none)
  | '+' :: cs => ([], some cs)
  | c :: cs =>
    let r := breakPlus cs
    (c :: r.1, r.2)

/-- Validity of what follows `major.minor.patch`: nothing, `-pre` with an
optional `+build`, or `+build`. -/
def afterCore : List Char → Bool
  | [] => true
  | '-' :: rest =>
    let pb := breakPlus rest
    (splitOnChar '.' pb.1).all preIdent &&
      (match pb.2 with
       | none => true
       | some b => (splitOnChar '.' b).all buildIdent)
  | '+' :: rest => (splitOnChar '.' rest).all buildIdent
  | _ => false

/-- Model of `semver::Version::parse(..).is_ok()`: `major.minor.patch` with
`u64` numeric components without leading zeros, then optional pre-release
and build metadata per the semver grammar. -/
def semverValid (cs : List Char) : Bool :=
  let s1 := spanDigits cs
  numOk s1.1 &&
    (match s1.2 with
     | '.' :: r2 =>
       let s2 := spanDigits r2
       numOk s2.1 &&
         (match s2.2 with
          | '.' :: r4 =>
            let s3 := spanDigits r4
            numOk s3.1 && afterCore s3.2
          | _ => false)
     | _ => false)

/-- `short_ver` from `rollout.rs`: abbreviate a 40-character non-semver tag
(a full git sha) to its first 8 characters, leave anything else unchanged.
The source compares `ver.len()`, a UTF-8 byte count, and slices the first 8
bytes; on the ASCII tags this code handles, bytes and characters agree, so
the model uses character counts. -/
def short_ver (ver : List Char) : List Char :=
  if !semverValid ver && ver.length = 40 then ver.take 8 else ver

/-- Version tag computation of `PodSummary::try_from` (`rollout.rs` lines
364-374) applied to the main container's image reference:
`short_ver(image.split(':').collect::<Vec<_>>()[1])`.  `none` models the
index panic when the image contains no `:`. -/
def podVersionTag (image : List Char) : Option (List Char) :=
  match splitOnChar ':' image with
  | _ :: second :: _ => some (short_ver second)
  | _ => none

/-- Result of `Rollout::get_rs` (`rollout.rs` lines 53-58).
`assertFailed` models the `assert_eq!(rs.items.len(), 1, ..)` panic;
`invariantViolation` is the `Error::KubeInvariant` variant of the crate's
error enum, which this function could propagate but never constructs;
`found` is the `Ok` payload. -/
inductive RsFetchResult (α : Type) where
  | assertFailed
  | invariantViolation (msg : String)
  | found (rs : Option α)
deriving DecidableEq

/-- `Rollout::get_rs`: asserts that exactly one replica set matched the
selector, then returns the first item. -/
def get_rs {α : Type} (items : List α) : RsFetchResult α :=
  if items.length = 1 then .found items.head? else .assertFailed

/-- On a state satisfying the loop invariant and the loop guard, the body
normalizes the old-replica count to `replicas - newrs` (so the in-loop total
is exactly `replicas`) and adds the constant step `usafe + surge` to the
new-replica count. -/
theorem rolloutBody_normal (replicas surge unavail : Nat) (s : Nat × Nat)
    (hinv : replicas ≤ s.2 + s.1) (hlt : s.1 < replicas) :
    rolloutBody replicas surge unavail s
      = (s.1 + usafe replicas unavail + surge,
         (replicas - s.1) - min (replicas - s.1) (usafe replicas unavail)) := by
  obtain ⟨newrs, oldrs⟩ := s
  simp only [rolloutBody, usafe]
  have h1 : oldrs - (oldrs + newrs - replicas) = replicas - newrs := by omega
  have h2 : newrs + (replicas - newrs) = replicas := by omega
  rw [h1, h2]

/-- Division identity used to peel one iteration off the ceiling of
`d / step`. -/
theorem ceil_div_step (d step : Nat) (hd : 0 < d) (hstep : 0 < step) :
    (d + step - 1) / step = 1 + (d - step + step - 1) / step := by
  rcases le_or_lt step d with h | h
  · have h1 : d - step + step = d := by omega
    have h2 : d + step - 1 = d - 1 + step := by omega
    rw [h1, h2, Nat.add_div_right _ hstep]
    omega
  · have h1 : d - step = 0 := by omega
    have h2 : (step - 1) / step = 0 := Nat.div_eq_of_lt (by omega)
    have h3 : (d + step - 1) / step = 1 := by
      have hlo : 1 * step ≤ d + step - 1 := by omega
      have hhi : d + step - 1 < (1 + 1) * step := by omega
      exact Nat.div_eq_of_lt_le hlo hhi
    rw [h1, h3]
    simpa using h2

/-- Closed form of the rollout loop: from any state satisfying the loop
invariant, with a positive step and enough fuel, the loop returns
`iters` plus the ceiling of the remaining distance divided by the step. -/
theorem rolloutLoop_closed (replicas surge unavail : Nat)
    (hstep : 0 < usafe replicas unavail + surge) :
    ∀ fuel newrs oldrs iters,
      replicas ≤ oldrs + newrs →
      replicas ≤ newrs + fuel * (usafe replicas unavail + surge) →
      rolloutLoop replicas surge unavail (fuel + 1) (newrs, oldrs) iters
        = some (iters + (replicas - newrs + (usafe replicas unavail + surge) - 1)
                  / (usafe replicas unavail + surge)) := by
  intro fuel
  induction fuel with
  | zero =>
    intro newrs oldrs iters hinv hfuel
    have hge : ¬ (newrs < replicas) := by omega
    unfold rolloutLoop
    simp only [hge, if_false]
    have hz : replicas - newrs = 0 := by omega
    rw [hz]
    have : (0 + (usafe replicas unavail + surge) - 1) / (usafe replicas unavail + surge) = 0 :=
      Nat.div_eq_of_lt (by omega)
    rw [this, Nat.add_zero]
  | succ fuel ih =>
    intro newrs oldrs iters hinv hfuel
    unfold rolloutLoop
    by_cases hlt : newrs < replicas
    · simp only [hlt, if_true]
      rw [rolloutBody_normal replicas surge unavail (newrs, oldrs) hinv hlt]
      have hinv' : replicas ≤
          ((replicas - newrs) - min (replicas - newrs) (usafe replicas unavail))
            + (newrs + usafe replicas unavail + surge) := by omega
      have hfuel' : replicas ≤ (newrs + usafe replicas unavail + surge)
          + fuel * (usafe replicas unavail + surge) := by
        have := hfuel
        simp only [Nat.succ_mul] at this ⊢
        omega
      rw [ih (newrs + usafe replicas unavail + surge)
          ((replicas - newrs) - min (replicas - newrs) (usafe replicas unavail))
          (iters + 1) hinv' hfuel']
      have harith : iters + 1
            + (replicas - (newrs + usafe replicas unavail + surge)
                + (usafe replicas unavail + surge) - 1) / (usafe replicas unavail + surge)
          = iters + (replicas - newrs + (usafe replicas unavail + surge) - 1)
              / (usafe replicas unavail + surge) := by
        have hsub : replicas - (newrs + usafe replicas unavail + surge)
            = replicas - newrs - (usafe replicas unavail + surge) := by omega
        rw [hsub]
        have hpeel := ceil_div_step (replicas - newrs) (usafe replicas unavail + surge)
          (by omega) hstep
        omega
      rw [harith]
    · simp only [hlt, if_false]
      have hz : replicas - newrs = 0 := by omega
      rw [hz]
      have : (0 + (usafe replicas unavail + surge) - 1) / (usafe replicas unavail + surge) = 0 :=
        Nat.div_eq_of_lt (by omega)
      rw [this, Nat.add_zero]

/-- The loop's result is at least the iteration counter it starts with. -/
theorem rolloutLoop_iters_le (replicas surge unavail : Nat) :
    ∀ fuel s iters m,
      rolloutLoop replicas surge unavail fuel s iters = some m → iters ≤ m := by
  intro fuel
  induction fuel with
  | zero => intro s iters m h; exact absurd h (by simp [rolloutLoop])
  | succ fuel ih =>
    intro s iters m h
    unfold rolloutLoop at h
    split at h
    · exact le_trans (Nat.le_succ iters) (ih _ _ _ h)
    · simp only [Option.some.injEq] at h
      omega

/-- When the surge is zero and the unavailable budget is at least the
replica count (so the in-loop `unavail_safe` is clamped to zero), the loop
body fixes the initial state and the loop never exits, whatever the fuel. -/
theorem rolloutLoop_stuck (replicas unavail : Nat) (hr : 0 < replicas)
    (hu : replicas ≤ unavail) :
    ∀ fuel iters, rolloutLoop replicas 0 unavail fuel (0, replicas) iters = none := by
  intro fuel
  induction fuel with
  | zero => intro iters; rfl
  | succ fuel ih =>
    intro iters
    have hb : rolloutBody replicas 0 unavail (0, replicas) = (0, replicas) := by
      simp only [rolloutBody]
      have h1 : replicas - (replicas + 0 - replicas) = replicas := by omega
      rw [h1]
      have h2 : 0 + replicas = replicas := by omega
      rw [h2]
      simp [hu]
    unfold rolloutLoop
    simp only [hr, if_true]
    rw [hb]
    exact ih (iters + 1)

/-- Bounds on the canonical loop state after `k` iterations, provided the
guard held at each earlier iteration: the invariant
`replicas ≤ newrs + oldrs`, the upper bound
`newrs + oldrs ≤ replicas + usafe + surge`, and `oldrs ≤ replicas`. -/
theorem rolloutStateK_bounds (replicas surge unavail : Nat) :
    ∀ k, (∀ j, j < k → (rolloutStateK replicas surge unavail j).1 < replicas) →
      replicas ≤ (rolloutStateK replicas surge unavail k).1
          + (rolloutStateK replicas surge unavail k).2
      ∧ (rolloutStateK replicas surge unavail k).1
          + (rolloutStateK replicas surge unavail k).2
          ≤ replicas + usafe replicas unavail + surge
      ∧ (rolloutStateK replicas surge unavail k).2 ≤ replicas := by
  intro k
  induction k with
  | zero => intro _; simp only [rolloutStateK]; omega
  | succ k ih =>
    intro hg
    have hk : (rolloutStateK replicas surge unavail k).1 < replicas :=
      hg k (Nat.lt_succ_self k)
    obtain ⟨h1, h2, h3⟩ := ih (fun j hj => hg j (Nat.lt_trans hj (Nat.lt_succ_self k)))
    have hstep : rolloutStateK replicas surge unavail (k + 1)
        = ((rolloutStateK replicas surge unavail k).1 + usafe replicas unavail + surge,
           (replicas - (rolloutStateK replicas surge unavail k).1)
             - min (replicas - (rolloutStateK replicas surge unavail k).1)
                 (usafe replicas unavail)) := by
      show rolloutBody replicas surge unavail (rolloutStateK replicas surge unavail k) = _
      exact rolloutBody_normal replicas surge unavail _ (by omega) hk
    rw [hstep]
    simp only
    omega

/-- With a positive step, `rollout_iterations` returns the ceiling of
`replicas` divided by the step (the fuel `replicas + 1` always suffices). -/
theorem rollout_iterations_eq (s : RolloutStrategy) (replicas surge unavail : Nat)
    (hs : s.surgeCount replicas = some surge) (hu : s.unavailCount replicas = some unavail)
    (hstep : 0 < usafe replicas unavail + surge) :
    s.rollout_iterations replicas
      = some ((replicas + (usafe replicas unavail + surge) - 1)
          / (usafe replicas unavail + surge)) := by
  unfold RolloutStrategy.rollout_iterations
  rw [hs, hu]
  have h := rolloutLoop_closed replicas surge unavail hstep replicas 0 replicas 0
    (by omega) (by
      have := Nat.le_mul_of_pos_right replicas hstep
      omega)
  simpa using h

/-- The fold of `find_pod_delay` yields an upper bound of the declared
delays that is either the starting accumulator or one of the declared
delays (so, from `0`, it is exactly the maximum declared delay). -/
theorem foldl_delayStep (cs : List Container) : ∀ acc : Nat,
    acc ≤ cs.foldl delayStep acc
    ∧ (∀ c ∈ cs, ∀ rp, c.readiness_probe = some rp →
        ∀ dl, rp.initial_delay_seconds = some dl → dl.natAbs ≤ cs.foldl delayStep acc)
    ∧ (cs.foldl delayStep acc = acc ∨
        ∃ c ∈ cs, ∃ rp, c.readiness_probe = some rp ∧
          ∃ dl, rp.initial_delay_seconds = some dl ∧ dl.natAbs = cs.foldl delayStep acc) := by
  induction cs with
  | nil =>
    intro acc
    refine ⟨le_refl _, ?_, Or.inl rfl⟩
    intro c hc
    exact absurd hc (List.not_mem_nil c)
  | cons c cs ih =>
    intro acc
    obtain ⟨h1, h2, h3⟩ := ih (delayStep acc c)
    have hstep : acc ≤ delayStep acc c := by
      rcases hcp : c.readiness_probe with _ | rp
      · simp [delayStep, hcp]
      · rcases hdl : rp.initial_delay_seconds with _ | dl
        · simp [delayStep, hcp, hdl]
        · simp only [delayStep, hcp, hdl]
          omega
    have hfold : (c :: cs).foldl delayStep acc = cs.foldl delayStep (delayStep acc c) := rfl
    refine ⟨?_, ?_, ?_⟩
    · rw [hfold]; exact le_trans hstep h1
    · intro c' hc' rp hrp dl hdl
      rw [hfold]
      rcases List.mem_cons.mp hc' with rfl | htail
      · have hd : dl.natAbs ≤ delayStep acc c' := by
          simp only [delayStep, hrp, hdl]
          omega
        exact le_trans hd h1
      · exact h2 c' htail rp hrp dl hdl
    · rw [hfold]
      rcases h3 with heq | ⟨c', hc', rp, hrp, dl, hdl, hv⟩
      · rw [heq]
        rcases hrp : c.readiness_probe with _ | rp
        · left; simp [delayStep, hrp]
        · rcases hdl : rp.initial_delay_seconds with _ | dl
          · left; simp [delayStep, hrp, hdl]
          · have hds : delayStep acc c = max acc dl.natAbs := by
              simp [delayStep, hrp, hdl]
            rcases le_total acc dl.natAbs with hle | hle
            · right
              exact ⟨c, List.mem_cons_self c cs, rp, hrp, dl, hdl,
                by rw [hds]; omega⟩
            · left; rw [hds]; omega
      · right
        exact ⟨c', List.mem_cons_of_mem c hc', rp, hrp, dl, hdl, hv⟩

/-- The first segment of a split is the longest separator-free prefix. -/
theorem splitOnChar_head (sep : Char) :
    ∀ cs : List Char, ∃ t, splitOnChar sep cs = cs.takeWhile (fun c => c != sep) :: t := by
  intro cs
  induction cs with
  | nil => exact ⟨[], rfl⟩
  | cons c cs ih =>
    obtain ⟨t, ht⟩ := ih
    by_cases hc : c = sep
    · refine ⟨splitOnChar sep cs, ?_⟩
      subst hc
      simp [splitOnChar, List.takeWhile]
    · refine ⟨t, ?_⟩
      have hne : (c != sep) = true := by simpa using hc
      simp only [splitOnChar, ht, List.takeWhile, hne]
      simp [hc]

/-- Splitting a list that is a separator-free prefix, the separator, then a
remainder yields the prefix followed by the split of the remainder. -/
theorem splitOnChar_append (sep : Char) :
    ∀ a r : List Char, (∀ c ∈ a, c ≠ sep) →
      splitOnChar sep (a ++ sep :: r) = a :: splitOnChar sep r := by
  intro a
  induction a with
  | nil => intro r _; simp [splitOnChar]
  | cons x a ih =>
    intro r ha
    have hx : x ≠ sep := ha x (List.mem_cons_self x a)
    have hrec := ih r (fun c hc => ha c (List.mem_cons_of_mem x hc))
    simp only [List.cons_append, splitOnChar, List.append_eq]
    rw [hrec]
    simp [hx]

/-- C1 (counterexample): at `Percentage "200%"` and `replicas = 3000000000`
the exact ceiling `ceil (3000000000 * 200 / 100) = 6000000000` does not fit
a `u32`, so the source's `as u32` cast saturates to `u32::MAX` and
`to_replicas_ceil` differs from the claimed exact value. -/
theorem c1_counterexample :
    AvailabilityPolicy.to_replicas_ceil (.Percentage "200%") 3000000000 = some u32max
    ∧ AvailabilityPolicy.to_replicas_ceil (.Percentage "200%") 3000000000
        ≠ some ((3000000000 * 200 + 99) / 100) := by
  constructor
  · decide
  · decide

/-- C1 (amended): for a percentage policy whose digits parse to `p`, whenever
the exact ceiling of `n * p / 100` fits a `u32`, `to_replicas_ceil` returns
exactly that ceiling and `to_replicas_floor` the exact floor; an absolute
policy returns its count unchanged for every `n`. -/
theorem c1_policy_arithmetic (str : String) (p n k : Nat)
    (hp : parseU32 (str.data.takeWhile (fun c => c != '%')) = some p)
    (hfit : (n * p + 99) / 100 ≤ u32max) :
    AvailabilityPolicy.to_replicas_ceil (.Percentage str) n = some ((n * p + 99) / 100)
    ∧ AvailabilityPolicy.to_replicas_floor (.Percentage str) n = some (n * p / 100)
    ∧ AvailabilityPolicy.to_replicas_ceil (.Unsigned k) n = some k
    ∧ AvailabilityPolicy.to_replicas_floor (.Unsigned k) n = some k := by
  have hfit2 : n * p / 100 ≤ u32max :=
    le_trans (Nat.div_le_div_right (Nat.le_add_right _ 99)) hfit
  refine ⟨?_, ?_, rfl, rfl⟩
  · simp [AvailabilityPolicy.to_replicas_ceil, hp, min_eq_left hfit]
  · simp [AvailabilityPolicy.to_replicas_floor, hp, min_eq_left hfit2]

/-- C1 witness: the amended claim evaluated at `Percentage "25%"`, `p = 25`,
`n = 10`, `k = 7`. -/
theorem c1_policy_arithmetic_witness :
    AvailabilityPolicy.to_replicas_ceil (.Percentage "25%") 10 = some ((10 * 25 + 99) / 100)
    ∧ AvailabilityPolicy.to_replicas_floor (.Percentage "25%") 10 = some (10 * 25 / 100)
    ∧ AvailabilityPolicy.to_replicas_ceil (.Unsigned 7) 10 = some 7
    ∧ AvailabilityPolicy.to_replicas_floor (.Unsigned 7) 10 = some 7 :=
  c1_policy_arithmetic "25%" 25 10 7 (by decide) (by decide)

/-- C2 (amended): the `while` loop of `rollout_iterations` exits after
finitely many iterations whenever the derived surge is positive, or the
derived unavailable count is positive and below the replica count, or the
replica count is zero — provided the derived counts satisfy
`replicas + unavail_safe + surge ≤ u32::MAX`, the range on which the
loop's `u32` arithmetic is exact (the bound of the C10 invariant theorem).
The case `surge = 0` with `0 < replicas ≤ unavailable` diverges (see the
counterexample), and outside the range bound the wrapping release-profile
loop can also cycle forever while the debug profile panics on overflow. -/
theorem c2_rollout_iterations_terminate (s : RolloutStrategy) (replicas surge unavail : Nat)
    (hs : s.surgeCount replicas = some surge) (hu : s.unavailCount replicas = some unavail)
    (hfit : replicas + usafe replicas unavail + surge ≤ u32max)
    (h : 0 < surge ∨ (0 < unavail ∧ unavail < replicas) ∨ replicas = 0) :
    (∃ iters, s.rollout_iterations replicas = some iters) ∧ RolloutTerminates s replicas := by
  have hsome : ∃ iters, s.rollout_iterations replicas = some iters := by
    rcases h with hsurge | ⟨hu1, hu2⟩ | hzero
    · exact ⟨_, rollout_iterations_eq s replicas surge unavail hs hu (by omega)⟩
    · have husafe : usafe replicas unavail = unavail := by
        unfold usafe
        rw [if_neg (by omega)]
      exact ⟨_, rollout_iterations_eq s replicas surge unavail hs hu (by omega)⟩
    · subst hzero
      refine ⟨0, ?_⟩
      unfold RolloutStrategy.rollout_iterations
      rw [hs, hu]
      rfl
  obtain ⟨iters, hit⟩ := hsome
  refine ⟨⟨iters, hit⟩, surge, unavail, replicas + 1, iters, hs, hu, ?_⟩
  unfold RolloutStrategy.rollout_iterations at hit
  rw [hs, hu] at hit
  exact hit

/-- C2 witness: a pure unavailable-driven strategy (`surge = 0`,
`unavailable = 1 < replicas = 3`, well inside `u32` range) terminates. -/
theorem c2_rollout_iterations_terminate_witness :
    (∃ iters, RolloutStrategy.rollout_iterations
        ⟨some (.Unsigned 1), some (.Unsigned 0)⟩ 3 = some iters)
    ∧ RolloutTerminates ⟨some (.Unsigned 1), some (.Unsigned 0)⟩ 3 :=
  c2_rollout_iterations_terminate ⟨some (.Unsigned 1), some (.Unsigned 0)⟩ 3 0 1 rfl rfl
    (by decide) (Or.inr (Or.inl ⟨by decide, by decide⟩))

/-- C2 (counterexample): with `surge = 0`, `unavailable = 5 > 0` and
`replicas = 2` the total never exceeds the unavailable budget, the in-loop
`unavail_safe` is clamped to zero, the body fixes the state
`(newrs, oldrs) = (0, 2)`, and the `while` loop never exits — refuting
termination for every strategy with surge zero and unavailable positive. -/
theorem c2_counterexample :
    ¬ RolloutTerminates ⟨some (.Unsigned 5), some (.Unsigned 0)⟩ 2 := by
  rintro ⟨surge, unavail, fuel, iters, hs, hu, hloop⟩
  simp only [RolloutStrategy.surgeCount, AvailabilityPolicy.to_replicas_ceil,
    Option.some.injEq] at hs
  simp only [RolloutStrategy.unavailCount, AvailabilityPolicy.to_replicas_floor,
    Option.some.injEq] at hu
  subst hs
  subst hu
  rw [rolloutLoop_stuck 2 5 (by omega) (by omega) fuel 0] at hloop
  exact Option.noConfusion hloop

/-- C3 (counterexample): for the fixed explicit 25%/25% strategy the
iteration count is not monotone in the replica count: three replicas need
three cycles (step 1) but four replicas need only two (step 2). -/
theorem c3_counterexample :
    RolloutStrategy.defaultStrategy.rollout_iterations 3 = some 3
    ∧ RolloutStrategy.defaultStrategy.rollout_iterations 4 = some 2
    ∧ ¬ ((3 : Nat) ≤ 2) := by
  refine ⟨by decide, by decide, by decide⟩

/-- C3 (amended): within the range where the loop's `u32` arithmetic is
exact (`replicas + unavail_safe + surge ≤ u32::MAX`, the bound of the C10
invariant theorem), whenever `rollout_iterations` returns at a positive
replica count its result is strictly positive (for every strategy), and
for a pure absolute-surge strategy (`max_surge = Unsigned k`, `k > 0`,
`max_unavailable = Unsigned 0`), whose per-iteration step does not depend
on the replica count, the result is monotonically non-decreasing in the
replica count. -/
theorem c3_positive_and_monotone (s : RolloutStrategy) (su un k n n1 n2 : Nat)
    (hk : 0 < k) (h12 : n1 ≤ n2) (hn : 0 < n)
    (hs : s.surgeCount n = some su) (hu : s.unavailCount n = some un)
    (hfitp : n + usafe n un + su ≤ u32max) (hfitm : n2 + k ≤ u32max) :
    (∀ m, s.rollout_iterations n = some m → 0 < m)
    ∧ (∃ m1 m2,
        RolloutStrategy.rollout_iterations ⟨some (.Unsigned 0), some (.Unsigned k)⟩ n1 = some m1
        ∧ RolloutStrategy.rollout_iterations ⟨some (.Unsigned 0), some (.Unsigned k)⟩ n2 = some m2
        ∧ m1 ≤ m2) := by
  constructor
  · intro m hm
    unfold RolloutStrategy.rollout_iterations at hm
    rw [hs, hu] at hm
    have hm2 : rolloutLoop n su un (n + 1) (0, n) 0 = some m := hm
    have hone : rolloutLoop n su un (n + 1) (0, n) 0
        = if 0 < n then rolloutLoop n su un n (rolloutBody n su un (0, n)) 1
          else some 0 := rfl
    rw [hone, if_pos hn] at hm2
    have := rolloutLoop_iters_le n su un n _ 1 m hm2
    omega
  · have husafe : ∀ j : Nat, usafe j 0 = 0 := by
      intro j
      unfold usafe
      split <;> rfl
    have h1 := rollout_iterations_eq ⟨some (.Unsigned 0), some (.Unsigned k)⟩ n1 k 0
      rfl rfl (by rw [husafe]; omega)
    have h2 := rollout_iterations_eq ⟨some (.Unsigned 0), some (.Unsigned k)⟩ n2 k 0
      rfl rfl (by rw [husafe]; omega)
    simp only [husafe, Nat.zero_add] at h1 h2
    refine ⟨_, _, h1, h2, Nat.div_le_div_right (by omega)⟩

/-- C3 witness: positivity evaluated for the default strategy at five
replicas (two cycles, derived surge 2 and unavailable 1), and monotonicity
for the absolute surge-2 strategy between three and six replicas. -/
theorem c3_positive_and_monotone_witness :
    (0 : Nat) < 2
    ∧ (∃ m1 m2,
        RolloutStrategy.rollout_iterations ⟨some (.Unsigned 0), some (.Unsigned 2)⟩ 3 = some m1
        ∧ RolloutStrategy.rollout_iterations ⟨some (.Unsigned 0), some (.Unsigned 2)⟩ 6 = some m2
        ∧ m1 ≤ m2) :=
  ⟨(c3_positive_and_monotone RolloutStrategy.defaultStrategy 2 1 2 5 3 6
      (by decide) (by decide) (by decide) (by decide) (by decide) (by decide) (by decide)).1
      2 (by decide),
   (c3_positive_and_monotone RolloutStrategy.defaultStrategy 2 1 2 5 3 6
      (by decide) (by decide) (by decide) (by decide) (by decide) (by decide) (by decide)).2⟩

/-- Unfolding of the StatefulSet evaluator when the tracked minimum fits
`i32` (otherwise the source's `expect` panics). -/
theorem rollout_status_statefulset_eq (s : StatefulSummary) (st : State)
    (hm : st.min_replicas < 2147483648) :
    rollout_status_statefulset s st
      = .ok { progress := (max 0 s.updated_replicas).toNat,
              expected := st.min_replicas,
              message := if (decide ((st.min_replicas : Int) ≤ s.updated_replicas) &&
                    decide (s.updated_replicas = s.ready) &&
                    decide (s.update_revision = st.hash)) = true
                then none else some "Statefulset update in progress",
              ok := decide ((st.min_replicas : Int) ≤ s.updated_replicas) &&
                  decide (s.updated_replicas = s.ready) &&
                  decide (s.update_revision = st.hash) } := by
  unfold rollout_status_statefulset
  rw [if_neg (by omega)]

/-- Unfolding of the DaemonSet evaluator when the tracked minimum fits
`i32`. -/
theorem rollout_status_daemonset_eq (s : DaemonSummary) (st : State)
    (hm : st.min_replicas < 2147483648) :
    rollout_status_daemonset s st
      = .ok { progress := (max 0 (s.updated.getD s.ready)).toNat,
              expected := st.min_replicas,
              message := if (decide ((st.min_replicas : Int) ≤ s.desired) &&
                    decide (some s.desired = s.updated)) = true
                then none else some "Daemonset update in progress",
              ok := decide ((st.min_replicas : Int) ≤ s.desired) &&
                  decide (some s.desired = s.updated) } := by
  unfold rollout_status_daemonset
  rw [if_neg (by omega)]

/-- Unfolding of the Deployment evaluator on the fallback path (no pinned
hash or nothing fetched) when the tracked minimum fits `i32`: the clamped
aggregate progress and the three-signal completion condition. -/
theorem rollout_status_deploy_fallback_eq (d : DeploySummary) (hash : Option String)
    (m : Nat) (fetched : Option ReplicaSetSummary) (hm : m < 2147483648)
    (hfb : hash = none ∨ fetched = none) :
    rollout_status_deploy d ⟨hash, m⟩ fetched
      = .ok { progress := (max 0 (i32wrap (d.ready - d.unavailable))).toNat,
              expected := m,
              message := d.message,
              ok := decide (d.ready = d.replicas) && decide ((m : Int) ≤ d.ready) &&
                  (d.new_replicas_available || decide (d.unavailable ≤ 0)) } := by
  have hprog : ¬ ((max 0 (i32wrap (d.ready - d.unavailable))) < 0) :=
    not_lt.mpr (le_max_left 0 _)
  rcases hfb with rfl | rfl
  · simp only [rollout_status_deploy]
    rw [if_neg (by omega : ¬ ((2147483648 : Nat) ≤ m)), if_neg hprog]
  · cases hash with
    | none =>
      simp only [rollout_status_deploy]
      rw [if_neg (by omega : ¬ ((2147483648 : Nat) ≤ m)), if_neg hprog]
    | some hh =>
      simp only [rollout_status_deploy]
      rw [if_neg (by omega : ¬ ((2147483648 : Nat) ≤ m)), if_neg hprog]

/-- C4 (counterexample): a deployment summary with `unavailable = -1`
(status fields are signed and can be transiently negative) satisfies the
source's fallback condition `unavailable <= 0` while the claimed condition
"the unavailable count is zero" fails, yet `ok` is `true`. -/
theorem c4_counterexample :
    rollout_status_deploy ⟨5, -1, 5, false, none⟩ ⟨none, 5⟩ none = .ok ⟨6, 5, none, true⟩
    ∧ ¬ ((false = true) ∨ (-1 : Int) = 0) := by
  constructor
  · decide
  · decide

/-- C4 (amended): with no pinned hash or no matched replica set, and a
tracked minimum within `i32` range, the Deployment evaluator returns an
outcome whose `ok` is `true` exactly when `ready = replicas`,
`ready ≥ minimum`, and the new-replica-set-available signal is set or the
unavailable count is at most zero (the source tests `unavailable <= 0`,
not `= 0`). -/
theorem c4_deploy_fallback (d : DeploySummary) (hash : Option String) (m : Nat)
    (fetched : Option ReplicaSetSummary) (hm : m < 2147483648)
    (hfb : hash = none ∨ fetched = none) :
    ∃ o, rollout_status_deploy d ⟨hash, m⟩ fetched = .ok o
      ∧ (o.ok = true ↔
          (d.ready = d.replicas ∧ (m : Int) ≤ d.ready ∧
            (d.new_replicas_available = true ∨ d.unavailable ≤ 0))) := by
  refine ⟨_, rollout_status_deploy_fallback_eq d hash m fetched hm hfb, ?_⟩
  simp [Bool.and_eq_true, Bool.or_eq_true, decide_eq_true_eq, and_assoc]

/-- C4 witness: the claim's own instance `ready = replicas = 5`,
`unavailable = 0`, `minimum = 4 ≤ 5`, no matched replica set. -/
theorem c4_deploy_fallback_witness :
    ∃ o, rollout_status_deploy ⟨5, 0, 5, false, none⟩ ⟨none, 4⟩ none = .ok o
      ∧ (o.ok = true ↔
          ((5 : Int) = 5 ∧ (4 : Int) ≤ 5 ∧ ((false = true) ∨ (0 : Int) ≤ 0))) :=
  c4_deploy_fallback ⟨5, 0, 5, false, none⟩ none 4 none (by omega) (Or.inl rfl)

/-- C5 (confirmed): for a tracked minimum within `i32` range the StatefulSet
evaluator returns an outcome whose `ok` is `true` exactly when
`updated_replicas ≥ minimum`, `updated_replicas = ready`, and the summary's
update revision equals the tracked hash. -/
theorem c5_statefulset_ok_iff (s : StatefulSummary) (hash : Option String) (m : Nat)
    (hm : m < 2147483648) :
    ∃ o, rollout_status_statefulset s ⟨hash, m⟩ = .ok o
      ∧ (o.ok = true ↔
          ((m : Int) ≤ s.updated_replicas ∧ s.updated_replicas = s.ready ∧
            s.update_revision = hash)) := by
  refine ⟨_, rollout_status_statefulset_eq s ⟨hash, m⟩ hm, ?_⟩
  simp [Bool.and_eq_true, decide_eq_true_eq, and_assoc]

/-- C5 witness: `updated_replicas = ready = 3`, matching revision and
`minimum = 3` give `ok = true`; the evaluator applied through the theorem. -/
theorem c5_statefulset_ok_iff_witness :
    ∃ o, rollout_status_statefulset ⟨3, 3, none, 3, some "h", 3⟩ ⟨some "h", 3⟩ = .ok o
      ∧ (o.ok = true ↔
          ((3 : Int) ≤ 3 ∧ (3 : Int) = 3 ∧ (some "h" : Option String) = some "h")) :=
  c5_statefulset_ok_iff ⟨3, 3, none, 3, some "h", 3⟩ (some "h") 3 (by omega)

/-- C6 (counterexample): on the accurate matched-replica-set path a negative
ready count is not clamped: the evaluator returns the
`Error::KubeInvariant("progress >= 0")` error instead of an outcome with
progress zero (which the claim predicts). -/
theorem c6_counterexample :
    rollout_status_deploy ⟨5, 0, 5, false, none⟩ ⟨some "h", 3⟩ (some ⟨"h", "v", 3, -1⟩)
        = .err "progress >= 0"
    ∧ rollout_status_deploy ⟨5, 0, 5, false, none⟩ ⟨some "h", 3⟩ (some ⟨"h", "v", 3, -1⟩)
        ≠ .ok ⟨0, 3, none, false⟩ := by
  constructor
  · decide
  · decide

/-- C6 (amended): the StatefulSet and DaemonSet evaluators and the
Deployment fallback path clamp a negative intermediate count to zero before
exposing it as progress; the Deployment accurate path does not clamp — a
negative matched-replica-set ready count yields the
`KubeInvariant("progress >= 0")` error instead of an outcome. -/
theorem c6_progress_clamped (d : DeploySummary) (ss : StatefulSummary) (ds : DaemonSummary)
    (rs : ReplicaSetSummary) (hh : String) (m : Nat) (hm : m < 2147483648)
    (hrr : rs.replicas < 2147483648) (hrs : rs.ready < 0) :
    (∃ o, rollout_status_statefulset ss ⟨some hh, m⟩ = .ok o
      ∧ (ss.updated_replicas ≤ 0 → o.progress = 0))
    ∧ (∃ o, rollout_status_daemonset ds ⟨some hh, m⟩ = .ok o
      ∧ (ds.updated.getD ds.ready ≤ 0 → o.progress = 0))
    ∧ (∃ o, rollout_status_deploy d ⟨none, m⟩ none = .ok o
      ∧ (i32wrap (d.ready - d.unavailable) ≤ 0 → o.progress = 0))
    ∧ rollout_status_deploy d ⟨some hh, m⟩ (some rs) = .err "progress >= 0" := by
  refine ⟨⟨_, rollout_status_statefulset_eq ss ⟨some hh, m⟩ hm, ?_⟩,
    ⟨_, rollout_status_daemonset_eq ds ⟨some hh, m⟩ hm, ?_⟩,
    ⟨_, rollout_status_deploy_fallback_eq d none m none hm (Or.inl rfl), ?_⟩, ?_⟩
  · intro hneg
    simp only
    omega
  · intro hneg
    simp only
    omega
  · intro hneg
    simp only
    omega
  · have hmin2 : ¬ ((2147483648 : Nat) ≤ max m rs.replicas.toNat) := by omega
    simp only [rollout_status_deploy]
    rw [if_neg hmin2, if_pos hrs]

/-- C6 witness: the amended claim applied at concrete summaries with
negative intermediate counts. -/
theorem c6_progress_clamped_witness :
    (∃ o, rollout_status_statefulset ⟨0, 0, none, 0, none, -2⟩ ⟨some "h", 1⟩ = .ok o
      ∧ ((-2 : Int) ≤ 0 → o.progress = 0))
    ∧ (∃ o, rollout_status_daemonset ⟨-1, 0, none⟩ ⟨some "h", 1⟩ = .ok o
      ∧ (((none : Option Int).getD (-1) ≤ 0) → o.progress = 0))
    ∧ (∃ o, rollout_status_deploy ⟨0, 3, 1, false, none⟩ ⟨none, 1⟩ none = .ok o
      ∧ (i32wrap ((1 : Int) - 3) ≤ 0 → o.progress = 0))
    ∧ rollout_status_deploy ⟨0, 3, 1, false, none⟩ ⟨some "h", 1⟩ (some ⟨"h", "v", 2, -1⟩)
        = .err "progress >= 0" :=
  c6_progress_clamped ⟨0, 3, 1, false, none⟩ ⟨0, 0, none, 0, none, -2⟩ ⟨-1, 0, none⟩
    ⟨"h", "v", 2, -1⟩ "h" 1 (by omega) (by norm_num) (by norm_num)

/-- C7 (counterexample): a pod template whose single container declares no
readiness probe yields `Some 0`, not the claimed absent value, so the
estimator's 30-second caller-side default is suppressed rather than
applied. -/
theorem c7_counterexample :
    find_pod_delay ⟨[⟨"app", none, none⟩]⟩ = some 0
    ∧ find_pod_delay ⟨[⟨"app", none, none⟩]⟩ ≠ none := by
  constructor
  · rfl
  · decide

/-- C7 (amended): `find_pod_delay` always returns `Some` of the maximum
`unsigned_abs` of the delays declared by containers with a readiness probe
(zero when there are none), so a probe-less template yields `Some 0` and
the estimator then uses a zero delay instead of its 30-second default —
concretely 180 rather than 270 seconds for two replicas under the default
strategy. -/
theorem c7_find_pod_delay (p : PodSpec) :
    (∃ n, find_pod_delay p = some n
      ∧ (∀ c ∈ p.containers, ∀ rp, c.readiness_probe = some rp →
          ∀ dl, rp.initial_delay_seconds = some dl → dl.natAbs ≤ n)
      ∧ (n = 0 ∨ ∃ c ∈ p.containers, ∃ rp, c.readiness_probe = some rp ∧
          ∃ dl, rp.initial_delay_seconds = some dl ∧ dl.natAbs = n))
    ∧ estimate_wait_time ⟨none, 2, none, some 0⟩ = some 180
    ∧ estimate_wait_time ⟨none, 2, none, none⟩ = some 270 := by
  obtain ⟨h1, h2, h3⟩ := foldl_delayStep p.containers 0
  exact ⟨⟨p.containers.foldl delayStep 0, rfl, h2, h3⟩, by decide, by decide⟩

/-- C7 witness: a template with a probed container (delay 10) and an
unprobed one; the inferred delay is bounded by and attained at a declared
delay. -/
theorem c7_find_pod_delay_witness :
    (∃ n, find_pod_delay ⟨[⟨"a", none, some ⟨some 10⟩⟩, ⟨"b", none, none⟩]⟩ = some n
      ∧ (∀ c ∈ [(⟨"a", none, some ⟨some 10⟩⟩ : Container), ⟨"b", none, none⟩],
          ∀ rp, c.readiness_probe = some rp →
          ∀ dl, rp.initial_delay_seconds = some dl → dl.natAbs ≤ n)
      ∧ (n = 0 ∨ ∃ c ∈ [(⟨"a", none, some ⟨some 10⟩⟩ : Container), ⟨"b", none, none⟩],
          ∃ rp, c.readiness_probe = some rp ∧
          ∃ dl, rp.initial_delay_seconds = some dl ∧ dl.natAbs = n))
    ∧ estimate_wait_time ⟨none, 2, none, some 0⟩ = some 180
    ∧ estimate_wait_time ⟨none, 2, none, none⟩ = some 270 :=
  c7_find_pod_delay ⟨[⟨"a", none, some ⟨some 10⟩⟩, ⟨"b", none, none⟩]⟩

/-- C8 (counterexample): for an image reference with a registry port
(`localhost:5000/app:1.2.3`) the source takes the segment after the FIRST
colon (`5000/app`), not the portion after the last colon (`1.2.3`). -/
theorem c8_counterexample :
    podVersionTag "localhost:5000/app:1.2.3".data = some "5000/app".data
    ∧ short_ver ((splitOnChar ':' "localhost:5000/app:1.2.3".data).getLastD []) = "1.2.3".data
    ∧ "5000/app".data ≠ "1.2.3".data := by
  refine ⟨by decide, by decide, by decide⟩

/-- C8 (amended): the displayed tag is `short_ver` of the SECOND segment of
splitting the image on `:` — the text between the first colon and the next
colon or the end (an image without any colon panics on the index); the
abbreviation rule is as claimed: a 40-character non-semver tag is cut to
its first 8 characters, while a valid-semver tag (such as 1.2.3) or a tag
whose length differs from 40 is left unmodified. -/
theorem c8_version_tag (v a r : List Char) (ha : ∀ c ∈ a, c ≠ ':') :
    (semverValid v = false → v.length = 40 → short_ver v = v.take 8)
    ∧ (semverValid v = true → short_ver v = v)
    ∧ (v.length ≠ 40 → short_ver v = v)
    ∧ semverValid "1.2.3".data = true
    ∧ podVersionTag (a ++ ':' :: r) = some (short_ver (r.takeWhile (fun c => c != ':'))) := by
  refine ⟨?_, ?_, ?_, by decide, ?_⟩
  · intro hsem hlen
    simp [short_ver, hsem, hlen]
  · intro hsem
    simp [short_ver, hsem]
  · intro hlen
    simp [short_ver, hlen]
  · obtain ⟨t, ht⟩ := splitOnChar_head ':' r
    unfold podVersionTag
    rw [splitOnChar_append ':' a r ha, ht]

/-- C8 witness: the amended claim at the image `app:1.2.3`, whose second
colon segment is the semver tag `1.2.3`, left unmodified. -/
theorem c8_version_tag_witness :
    (semverValid "1.2.3".data = false → ("1.2.3".data).length = 40 →
        short_ver "1.2.3".data = ("1.2.3".data).take 8)
    ∧ (semverValid "1.2.3".data = true → short_ver "1.2.3".data = "1.2.3".data)
    ∧ (("1.2.3".data).length ≠ 40 → short_ver "1.2.3".data = "1.2.3".data)
    ∧ semverValid "1.2.3".data = true
    ∧ podVersionTag ("app".data ++ ':' :: "1.2.3".data)
        = some (short_ver (("1.2.3".data).takeWhile (fun c => c != ':'))) :=
  c8_version_tag "1.2.3".data "app".data "1.2.3".data (by decide)

/-- C9 (counterexample): `get_rs` asserts exactly one match, so an empty
result list panics (`assert_eq!` failure) instead of yielding `None`, and a
two-element list also panics instead of propagating an `InvariantViolation`
error. -/
theorem c9_counterexample :
    get_rs ([] : List Nat) = .assertFailed
    ∧ get_rs ([] : List Nat) ≠ .found none
    ∧ get_rs ([3, 4] : List Nat) = .assertFailed := by
  refine ⟨by decide, by decide, by decide⟩

/-- C9 (amended): `get_rs` returns the single item when the selector
matched exactly one replica set, and otherwise fails its assertion — a
panic, not a propagated `InvariantViolation` error and not `None` —
covering both the empty and the more-than-one case. -/
theorem c9_get_rs (α : Type) (x : α) (xs : List α) (hlen : xs.length ≠ 1) :
    get_rs [x] = .found (some x) ∧ get_rs xs = .assertFailed := by
  constructor
  · simp [get_rs]
  · simp [get_rs, hlen]

/-- C9 witness: one match is returned; two matches hit the assertion. -/
theorem c9_get_rs_witness :
    get_rs [(7 : Nat)] = .found (some 7) ∧ get_rs ([3, 4] : List Nat) = .assertFailed :=
  c9_get_rs Nat 7 [3, 4] (by decide)

/-- C10 (amended): at the top of every reachable loop iteration the
invariant `oldrs + newrs ≥ replicas` holds (so both subtractions are exact
in ordinary arithmetic), and — provided
`replicas + unavail_safe + surge ≤ u32::MAX` — every value and addition
feeding the two subtractions stays within `u32` range, so the `u32`
arithmetic neither overflows nor underflows; without that bound the
addition `oldrs + newrs` can leave the range (see the counterexample). -/
theorem c10_loop_invariant (replicas surge unavail k : Nat)
    (hg : ∀ j, j < k → (rolloutStateK replicas surge unavail j).1 < replicas)
    (hfit : replicas + usafe replicas unavail + surge ≤ u32max) :
    replicas ≤ (rolloutStateK replicas surge unavail k).2
        + (rolloutStateK replicas surge unavail k).1
    ∧ ((rolloutStateK replicas surge unavail k).1 < replicas →
        (rolloutStateK replicas surge unavail k).2
            + (rolloutStateK replicas surge unavail k).1 - replicas
          ≤ (rolloutStateK replicas surge unavail k).2)
    ∧ (rolloutStateK replicas surge unavail k).1 + (rolloutStateK replicas surge unavail k).2
        ≤ u32max
    ∧ ((rolloutStateK replicas surge unavail k).1 < replicas →
        (rolloutStateK replicas surge unavail k).1 + usafe replicas unavail + surge ≤ u32max) := by
  obtain ⟨h1, h2, h3⟩ := rolloutStateK_bounds replicas surge unavail k hg
  exact ⟨by omega, by omega, by omega, by omega⟩

/-- C10 witness: the invariant and range bounds after one iteration at five
replicas with surge one and unavailable one. -/
theorem c10_loop_invariant_witness :
    (5 : Nat) ≤ (rolloutStateK 5 1 1 1).2 + (rolloutStateK 5 1 1 1).1
    ∧ ((rolloutStateK 5 1 1 1).1 < 5 →
        (rolloutStateK 5 1 1 1).2 + (rolloutStateK 5 1 1 1).1 - 5 ≤ (rolloutStateK 5 1 1 1).2)
    ∧ (rolloutStateK 5 1 1 1).1 + (rolloutStateK 5 1 1 1).2 ≤ u32max
    ∧ ((rolloutStateK 5 1 1 1).1 < 5 → (rolloutStateK 5 1 1 1).1 + usafe 5 1 + 1 ≤ u32max) :=
  c10_loop_invariant 5 1 1 1
    (by
      intro j hj
      have hj0 : j = 0 := by omega
      subst hj0
      decide)
    (by decide)

/-- C10 (counterexample): for the strategy `surge = u32::MAX - 1`,
`unavailable = 0` at `replicas = u32::MAX`, the state at the top of the
second iteration still satisfies the guard, yet `oldrs + newrs` exceeds
`u32::MAX` (so the `u32` addition overflows — a debug-profile panic) and
its wrapped value is below `replicas`, so the release-profile subtraction
`oldrs + newrs - replicas` underflows: the claim's "for any replica count
and any strategy" fails. -/
theorem c10_counterexample :
    RolloutStrategy.surgeCount ⟨some (.Unsigned 0), some (.Unsigned 4294967294)⟩ 4294967295
        = some 4294967294
    ∧ RolloutStrategy.unavailCount ⟨some (.Unsigned 0), some (.Unsigned 4294967294)⟩ 4294967295
        = some 0
    ∧ rolloutStateK 4294967295 4294967294 0 1 = (4294967294, 4294967295)
    ∧ (4294967294 : Nat) < 4294967295
    ∧ u32max < 4294967294 + 4294967295
    ∧ (4294967294 + 4294967295) % 4294967296 < 4294967295 := by
  refine ⟨rfl, rfl, by norm_num [rolloutStateK, rolloutBody], by norm_num,
    by norm_num [u32max], by norm_num⟩
